import Mathlib

/-!
Shallow embedding of the tutorial2 "secret reminder" contract
(`src/tutorial2/code/src/contract.rs` and `src/tutorial2/code/src/state.rs`),
together with theorems settling the frozen claims about its specification.

Bytes are modelled as `List (Fin 256)`; machine integers as `Nat` with
explicit reduction modulo `2 ^ w` where wrap-around matters (performed by the
little-endian serializers below, mirroring how `u16`/`u64` fields are stored).
Fallible operations return `Except StdError`; the two places where the source
can panic (`.ok().unwrap()` in `try_read` / `query_read`) are modelled by an
outer `Option`, `none` standing for a panic.
-/

namespace ReminderContract

abbrev Byte := Fin 256

abbrev Bytes := List Byte

/-- UTF-8 style byte view of a string literal (the contract only uses ASCII
keys such as b"config", for which this agrees with Rust's `as_bytes`). -/
def strBytes (s : String) : Bytes :=
  s.data.map (fun c => (⟨c.toNat % 256, by omega⟩ : Byte))

/-- Little-endian encoding of `n` on `k` bytes (the byte form that the
`Bincode2` serializer of `secret_toolkit` gives to `u16` / `u64` fields). -/
def leEnc : Nat → Nat → Bytes
  | 0, _ => []
  | k + 1, n => (⟨n % 256, by omega⟩ : Byte) :: leEnc k (n / 256)

/-- Little-endian decoding of a byte list back to a natural number. -/
def leDec : Bytes → Nat
  | [] => 0
  | b :: bs => b.val + 256 * leDec bs

theorem leEnc_length (k n : Nat) : (leEnc k n).length = k := by
  induction k generalizing n with
  | zero => rfl
  | succ k ih => simp [leEnc, ih]

theorem leDec_leEnc (k n : Nat) : leDec (leEnc k n) = n % 256 ^ k := by
  induction k generalizing n with
  | zero => simp [leEnc, leDec, Nat.mod_one]
  | succ k ih =>
      have h : (256 : Nat) ^ (k + 1) = 256 * 256 ^ k := by ring
      simp [leEnc, leDec, ih, h, Nat.mod_mul]

theorem leDec_leEnc_of_lt {k n : Nat} (h : n < 256 ^ k) :
    leDec (leEnc k n) = n := by
  rw [leDec_leEnc, Nat.mod_eq_of_lt h]

/-- The flat byte-oriented key-value backend (`Storage` in `cosmwasm_std`):
`set` prepends, `get` returns the most recent binding of a key. -/
abbrev Store := List (Bytes × Bytes)

def storeGet (s : Store) (k : Bytes) : Option Bytes :=
  match s with
  | [] => none
  | kv :: rest => if kv.1 = k then some kv.2 else storeGet rest k

def storeSet (s : Store) (k v : Bytes) : Store :=
  (k, v) :: s

theorem storeGet_set_same (s : Store) (k v : Bytes) :
    storeGet (storeSet s k v) k = some v := by
  simp [storeGet, storeSet]

theorem storeGet_set_ne (s : Store) (k k' v : Bytes) (h : k ≠ k') :
    storeGet (storeSet s k v) k' = storeGet s k' := by
  simp [storeGet, storeSet, h]

instance exceptDecEq {ε α : Type} [DecidableEq ε] [DecidableEq α] :
    DecidableEq (Except ε α)
  | .ok a, .ok b =>
      if h : a = b then .isTrue (by rw [h]) else .isFalse (by simp [h])
  | .ok _, .error _ => .isFalse (by simp)
  | .error _, .ok _ => .isFalse (by simp)
  | .error a, .error b =>
      if h : a = b then .isTrue (by rw [h]) else .isFalse (by simp [h])

/-- Errors of `cosmwasm_std::StdError` used by the contract. -/
inductive StdError where
  | genericErr (msg : String)
  | notFound (kind : String)
  | unauthorized
  | parseErr
  deriving DecidableEq

/-- `State` from `state.rs`: `max_size: u16`, `reminder_count: u64`,
`prng_seed: Vec<u8>`. Field ranges are enforced where the values are
(de)serialized. -/
structure State where
  max_size : Nat
  reminder_count : Nat
  prng_seed : Bytes
  deriving DecidableEq

/-- `Reminder` from `state.rs`: `content: Vec<u8>`, `timestamp: u64`. -/
structure Reminder where
  content : Bytes
  timestamp : Nat
  deriving DecidableEq

/-- Bincode2 encoding of `State`: fixed-width little-endian `u16` and `u64`,
then the seed bytes behind a `u64` length marker. -/
def encodeState (v : State) : Bytes :=
  leEnc 2 v.max_size ++ leEnc 8 v.reminder_count ++
    leEnc 8 v.prng_seed.length ++ v.prng_seed

/-- Bincode2 decoding of `State`; fails on byte strings that do not have the
exact shape produced by `encodeState`. -/
def decodeState (bs : Bytes) : Option State :=
  if 18 ≤ bs.length then
    let sl := leDec ((bs.drop 10).take 8)
    let seed := bs.drop 18
    if sl = seed.length then
      some ⟨leDec (bs.take 2), leDec ((bs.drop 2).take 8), seed⟩
    else none
  else none

/-- Bincode2 encoding of `Reminder`: content bytes behind a `u64` length
marker, then the `u64` timestamp. -/
def encodeReminder (r : Reminder) : Bytes :=
  leEnc 8 r.content.length ++ r.content ++ leEnc 8 r.timestamp

/-- Bincode2 decoding of `Reminder`; fails on byte strings that do not have
the exact shape produced by `encodeReminder`. -/
def decodeReminder (bs : Bytes) : Option Reminder :=
  if 8 ≤ bs.length then
    let len := leDec (bs.take 8)
    let rest := bs.drop 8
    if len + 8 = rest.length then
      some ⟨rest.take len, leDec (rest.drop len)⟩
    else none
  else none

theorem take_len_app (a b : Bytes) (n : Nat) (h : a.length = n) :
    (a ++ b).take n = a := by
  subst h; exact List.take_left a b

theorem drop_len_app (a b : Bytes) (n : Nat) (h : a.length = n) :
    (a ++ b).drop n = b := by
  subst h; exact List.drop_left a b

theorem decode_encodeState (v : State) (h1 : v.max_size < 2 ^ 16)
    (h2 : v.reminder_count < 2 ^ 64) (h3 : v.prng_seed.length < 2 ^ 64) :
    decodeState (encodeState v) = some v := by
  have e2 : (leEnc 2 v.max_size).length = 2 := leEnc_length ..
  have e8 : (leEnc 8 v.reminder_count).length = 8 := leEnc_length ..
  have e8l : (leEnc 8 v.prng_seed.length).length = 8 := leEnc_length ..
  have hlen : (encodeState v).length = 18 + v.prng_seed.length := by
    simp [encodeState, e2, e8, e8l]; omega
  have htake2 : (encodeState v).take 2 = leEnc 2 v.max_size := by
    unfold encodeState
    exact take_len_app _ _ _ e2
  have hdrop2 : (encodeState v).drop 2 =
      leEnc 8 v.reminder_count ++ leEnc 8 v.prng_seed.length ++ v.prng_seed := by
    unfold encodeState
    rw [List.append_assoc, List.append_assoc]
    rw [drop_len_app _ _ _ e2, List.append_assoc]
  have hdrop10 : (encodeState v).drop 10 =
      leEnc 8 v.prng_seed.length ++ v.prng_seed := by
    have : (encodeState v).drop 10 = ((encodeState v).drop 2).drop 8 := by
      rw [List.drop_drop]
    rw [this, hdrop2, List.append_assoc, drop_len_app _ _ _ e8]
  have hdrop18 : (encodeState v).drop 18 = v.prng_seed := by
    have : (encodeState v).drop 18 = ((encodeState v).drop 10).drop 8 := by
      rw [List.drop_drop]
    rw [this, hdrop10, drop_len_app _ _ _ e8l]
  have hsl : leDec (((encodeState v).drop 10).take 8) = v.prng_seed.length := by
    rw [hdrop10, take_len_app _ _ _ e8l]
    exact leDec_leEnc_of_lt (by simpa using h3)
  have hms : leDec ((encodeState v).take 2) = v.max_size := by
    rw [htake2]
    exact leDec_leEnc_of_lt (by simpa using h1)
  have hrc : leDec (((encodeState v).drop 2).take 8) = v.reminder_count := by
    rw [hdrop2, List.append_assoc, take_len_app _ _ _ e8]
    exact leDec_leEnc_of_lt (by simpa using h2)
  unfold decodeState
  rw [if_pos (by omega), hdrop18, hsl, if_pos rfl, hms, hrc]

theorem decode_encodeReminder (r : Reminder) (h1 : r.content.length < 2 ^ 64)
    (h2 : r.timestamp < 2 ^ 64) :
    decodeReminder (encodeReminder r) = some r := by
  have e8 : (leEnc 8 r.content.length).length = 8 := leEnc_length ..
  have e8t : (leEnc 8 r.timestamp).length = 8 := leEnc_length ..
  have hlen : (encodeReminder r).length = 8 + r.content.length + 8 := by
    simp [encodeReminder, e8, e8t]; omega
  have htake8 : (encodeReminder r).take 8 = leEnc 8 r.content.length := by
    unfold encodeReminder
    rw [List.append_assoc]
    exact take_len_app _ _ _ e8
  have hdrop8 : (encodeReminder r).drop 8 = r.content ++ leEnc 8 r.timestamp := by
    unfold encodeReminder
    rw [List.append_assoc]
    exact drop_len_app _ _ _ e8
  have hld : leDec ((encodeReminder r).take 8) = r.content.length := by
    rw [htake8]
    exact leDec_leEnc_of_lt (by simpa using h1)
  unfold decodeReminder
  rw [if_pos (by omega), hld, hdrop8]
  rw [if_pos (by simp [e8t])]
  rw [take_len_app _ _ _ rfl, drop_len_app _ _ _ rfl]
  rw [leDec_leEnc_of_lt (by simpa using h2)]

/-- `save` from `state.rs`: serialize and `set` (Bincode2 serialization of the
contract's types is total, so the `StdResult` wrapper always holds `Ok`). -/
def save (enc : α → Bytes) (storage : Store) (key : Bytes) (value : α) : Store :=
  storeSet storage key (enc value)

/-- `load` from `state.rs`: `NotFound` when the key is absent, a parse error
when the stored bytes do not decode. -/
def load (dec : Bytes → Option α) (tyName : String) (storage : Store)
    (key : Bytes) : Except StdError α :=
  match storeGet storage key with
  | none => .error (.notFound tyName)
  | some bs =>
      match dec bs with
      | some v => .ok v
      | none => .error .parseErr

/-- `may_load` from `state.rs`: absent keys give `Ok(None)`, present keys are
decoded (a decode failure is still an error). -/
def may_load (dec : Bytes → Option α) (storage : Store) (key : Bytes) :
    Except StdError (Option α) :=
  match storeGet storage key with
  | none => .ok none
  | some bs =>
      match dec bs with
      | some v => .ok (some v)
      | none => .error .parseErr

/-- Storage key of the `State` singleton (`CONFIG_KEY` in `state.rs`). -/
def CONFIG_KEY : Bytes := strBytes "config"

/-- Namespace tag for stored viewing-key hashes (`PREFIX_VIEWING_KEY`). -/
def PREFIX_VIEWING_KEY : Bytes := strBytes "viewingkey"

/-- Key layout of `cosmwasm_storage::PrefixedStorage` (external collaborator):
a two-byte big-endian length marker, the namespace bytes, then the item key. -/
def to_length_prefixed (ns : Bytes) : Bytes :=
  (⟨ns.length / 256 % 256, by omega⟩ : Byte) ::
    (⟨ns.length % 256, by omega⟩ : Byte) :: ns

/-- Concrete backend key under which an owner's viewing-key hash lives. -/
def vkKeyOf (owner : Bytes) : Bytes :=
  to_length_prefixed PREFIX_VIEWING_KEY ++ owner

/-- Concrete backend key under which an owner's reminder record lives
(`try_record` line 77 uses the raw canonical address bytes, no namespace). -/
def recordKeyOf (owner : Bytes) : Bytes :=
  owner

/-- Modelled from the spec: the token byte length documented for the
viewing-key scheme (`VIEWING_KEY_SIZE` in the `viewing_key` module, which is
not under `src/`). -/
def VIEWING_KEY_SIZE : Nat := 32

/-- Modelled from the spec: the fixed-length, non-short-circuiting
byte-accumulation comparison used for secret material — it folds a mismatch
tally over every byte position instead of exiting at the first difference,
and is `true` exactly when lengths and all bytes agree. -/
def ctEq (a b : Bytes) : Bool :=
  decide (a.length = b.length) &&
    decide ((a.zip b).foldl
      (fun acc p => acc + (if p.1 = p.2 then 0 else 1)) 0 = 0)

theorem foldl_add_shift (g : Byte × Byte → Nat) (l : List (Byte × Byte))
    (acc : Nat) :
    l.foldl (fun a p => a + g p) acc = acc + l.foldl (fun a p => a + g p) 0 := by
  induction l generalizing acc with
  | nil => simp
  | cons x xs ih =>
      simp only [List.foldl_cons]
      rw [ih (acc + g x), ih (0 + g x), Nat.zero_add, Nat.add_assoc]

theorem foldl_mismatch_zero (l : List (Byte × Byte)) :
    l.foldl (fun acc p => acc + (if p.1 = p.2 then 0 else 1)) 0 = 0 ↔
      ∀ p ∈ l, p.1 = p.2 := by
  induction l with
  | nil => simp
  | cons x xs ih =>
      simp only [List.foldl_cons, Nat.zero_add, List.mem_cons]
      rw [foldl_add_shift]
      constructor
      · intro h
        have hx : (if x.1 = x.2 then 0 else 1) = 0 := by omega
        have hxs : xs.foldl (fun acc p => acc + (if p.1 = p.2 then 0 else 1)) 0 = 0 := by
          omega
        refine fun p hp => hp.elim (fun he => ?_) (fun hm => ih.mp hxs p hm)
        subst he
        by_contra hne
        simp [hne] at hx
      · intro h
        have hx : x.1 = x.2 := h x (Or.inl rfl)
        have hxs : ∀ p ∈ xs, p.1 = p.2 := fun p hp => h p (Or.inr hp)
        simp [hx, ih.mpr hxs]

theorem zip_forall_eq (a b : Bytes) (hl : a.length = b.length) :
    (∀ p ∈ a.zip b, p.1 = p.2) ↔ a = b := by
  induction a generalizing b with
  | nil => cases b with
    | nil => simp
    | cons y ys => simp at hl
  | cons x xs ih =>
      cases b with
      | nil => simp at hl
      | cons y ys =>
          simp only [List.zip_cons_cons, List.mem_cons, List.cons.injEq]
          constructor
          · intro h
            refine ⟨h (x, y) (Or.inl rfl), ?_⟩
            exact (ih ys (by simpa using hl)).mp (fun p hp => h p (Or.inr hp))
          · rintro ⟨h1, h2⟩ p hp
            rcases hp with hp | hp
            · simp [hp, h1]
            · exact (ih ys (by simpa using hl)).mpr h2 p hp

theorem ctEq_iff (a b : Bytes) : ctEq a b = true ↔ a = b := by
  unfold ctEq
  rw [Bool.and_eq_true, decide_eq_true_iff, decide_eq_true_iff]
  constructor
  · rintro ⟨hl, hz⟩
    exact (zip_forall_eq a b hl).mp ((foldl_mismatch_zero _).mp hz)
  · rintro rfl
    exact ⟨rfl, (foldl_mismatch_zero _).mpr ((zip_forall_eq a a rfl).mpr rfl)⟩

theorem ctEq_self (a : Bytes) : ctEq a a = true := (ctEq_iff a a).mpr rfl

theorem ctEq_ne (a b : Bytes) (h : a ≠ b) : ctEq a b = false := by
  by_contra hc
  exact h ((ctEq_iff a b).mp (by revert hc; cases ctEq a b <;> simp))

/-- Human-readable identity string (`HumanAddr` in `cosmwasm_std`). -/
abbrev HumanAddr := String

/-- The per-call environment fields the contract reads (`Env`): the invoking
identity, the block time and the block height. -/
structure Env where
  sender : HumanAddr
  time : Nat
  height : Nat

/-- Modelled from the spec: the per-call environmental entropy mixed into a
viewing-key derivation (block height, block time, invoking identity); the
concrete `viewing_key` module is not under `src/`. -/
def envEntropy (env : Env) : Bytes :=
  leEnc 8 env.height ++ leEnc 8 env.time ++ strBytes env.sender

/-- Modelled from the spec: the domain-separation constant of the viewing-key
derivation. -/
def vkDomainTag : Bytes := strBytes "viewing_key"

/-- Modelled from the spec: `ViewingKey::new` — hash the concatenation of a
domain-separation constant, the contract-wide secret seed, per-call
environmental entropy and caller-supplied entropy into a bearer token. The
cryptographic hash is an explicit function parameter of the embedding. -/
def vkNew (hash : Bytes → Bytes) (env : Env) (seed entropy : Bytes) : Bytes :=
  hash (vkDomainTag ++ seed ++ envEntropy env ++ entropy)

/-- Modelled from the spec: `ViewingKey::to_hashed` — the one-way hash of the
token, the only form ever persisted. -/
def to_hashed (hash : Bytes → Bytes) (token : Bytes) : Bytes :=
  hash token

/-- Modelled from the spec: `ViewingKey::check_viewing_key` — recompute the
hash of the presented token and compare it to the stored hash with the
fixed-time comparison. -/
def check_viewing_key (hash : Bytes → Bytes) (token stored : Bytes) : Bool :=
  ctEq (to_hashed hash token) stored

/-- `write_viewing_key` from `state.rs`: store the hashed token under the
owner's key inside the `viewingkey` namespace. -/
def write_viewing_key (hash : Bytes → Bytes) (store : Store) (owner : Bytes)
    (key : Bytes) : Store :=
  storeSet store (vkKeyOf owner) (to_hashed hash key)

/-- `read_viewing_key` from `state.rs`. -/
def read_viewing_key (store : Store) (owner : Bytes) : Option Bytes :=
  storeGet store (vkKeyOf owner)

/-- `InitMsg` (fields read by `init` in `contract.rs`): `max_size: i32` and
seed material bytes. -/
structure InitMsg where
  max_size : Int
  prng_seed : Bytes

/-- `HandleMsg` from the message layer: the three handle commands that
`handle` dispatches on. String payloads are modelled by their byte views. -/
inductive HandleMsg where
  | Record (reminder : Bytes)
  | Read
  | GenerateViewingKey (entropy : Bytes)

/-- Modelled from the spec: `QueryMsg` — the stats query and the
authenticated read query carrying a candidate identity and a presented key
(the tutorial2 `msg.rs` is not under `src/`). -/
inductive QueryMsg where
  | Stats
  | Read (address : HumanAddr) (key : Bytes)

/-- `HandleAnswer`: response payloads of the handle commands. -/
inductive HandleAnswer where
  | Record (status : String)
  | Read (status : String) (reminder : Option Bytes) (timestamp : Option Nat)
  | GenerateViewingKey (key : Bytes)
  deriving DecidableEq

/-- `QueryAnswer`: response payloads of the queries. -/
inductive QueryAnswer where
  | Read (status : String) (reminder : Option Bytes) (timestamp : Option Nat)
  | Stats (reminder_count : Nat)
  deriving DecidableEq

/-- `valid_max_size` from `contract.rs`: values below 1 are rejected, the
rest go through `u16::try_from`, which succeeds exactly on `0..=65535`. -/
def valid_max_size (val : Int) : Option Nat :=
  if val < 1 then none
  else if val ≤ 65535 then some val.toNat else none

/-- `init` from `contract.rs`. The stored seed is the hash of the supplied
seed material (the source feeds it through base64 before `sha_256`; the
composed derivation is modelled by the abstract `hash` parameter). -/
def init (hash : Bytes → Bytes) (storage : Store) (msg : InitMsg) :
    Except StdError Store :=
  match valid_max_size msg.max_size with
  | none => .error (.genericErr "Invalid max_size. Must be in the range of 1..65535.")
  | some v =>
      .ok (save encodeState storage CONFIG_KEY ⟨v, 0, hash msg.prng_seed⟩)

/-- `try_record` from `contract.rs`. The canonical-address host call is the
total function `api`; `env.time` is the block time stamped into the record. -/
def try_record (storage : Store) (env : Env) (reminder : Bytes)
    (api : HumanAddr → Bytes) : Except StdError (HandleAnswer × Store) :=
  match load decodeState "State" storage CONFIG_KEY with
  | .error e => .error e
  | .ok config =>
      if reminder.length > config.max_size then
        .ok (.Record "Message is too long. Reminder not recorded.", storage)
      else
        let sender_address := api env.sender
        let stored_reminder : Reminder := ⟨reminder, env.time⟩
        let storage1 := save encodeReminder storage sender_address stored_reminder
        let storage2 := save encodeState storage1 CONFIG_KEY
          ⟨config.max_size, config.reminder_count + 1, config.prng_seed⟩
        .ok (.Record "Reminder recorded!", storage2)

/-- `try_read` from `contract.rs`. The source converts the stored content
back to a string with `String::from_utf8(..).ok()`; the embedding keeps the
byte view. The outer `Option` is `none` when `.ok().unwrap()` panics on a
decode error of the stored bytes. -/
def try_read (storage : Store) (env : Env) (api : HumanAddr → Bytes) :
    Option (Except StdError (HandleAnswer × Store)) :=
  let sender_address := api env.sender
  match (may_load decodeReminder storage sender_address).toOption with
  | none => none
  | some result =>
      match result with
      | some stored_reminder =>
          some (.ok (.Read "Reminder found." (some stored_reminder.content)
            (some stored_reminder.timestamp), storage))
      | none =>
          some (.ok (.Read "Reminder not found." none none, storage))

/-- `try_generate_viewing_key` from `contract.rs`. -/
def try_generate_viewing_key (hash : Bytes → Bytes) (storage : Store)
    (env : Env) (entropy : Bytes) (api : HumanAddr → Bytes) :
    Except StdError (HandleAnswer × Store) :=
  match load decodeState "State" storage CONFIG_KEY with
  | .error e => .error e
  | .ok config =>
      let key := vkNew hash env config.prng_seed entropy
      let message_sender := api env.sender
      let storage1 := write_viewing_key hash storage message_sender key
      .ok (.GenerateViewingKey key, storage1)

/-- `handle` from `contract.rs`: dispatch on the handle message. -/
def handle (hash : Bytes → Bytes) (storage : Store) (env : Env)
    (msg : HandleMsg) (api : HumanAddr → Bytes) :
    Option (Except StdError (HandleAnswer × Store)) :=
  match msg with
  | .Record reminder => some (try_record storage env reminder api)
  | .Read => try_read storage env api
  | .GenerateViewingKey entropy =>
      some (try_generate_viewing_key hash storage env entropy api)

/-- Modelled from the spec: `QueryMsg::get_validation_params` from the
missing `msg.rs` — the candidate identity list and the presented key of an
authenticated query; the covered read query carries exactly one candidate. -/
def get_validation_params (msg : QueryMsg) : List HumanAddr × Bytes :=
  match msg with
  | .Read address key => ([address], key)
  | .Stats => ([], [])

/-- The candidate loop of `authenticated_queries` (lines 171-188): per
candidate, an absent key reference costs one fixed-time comparison against
the all-zero dummy of length `VIEWING_KEY_SIZE` (result discarded), a present
reference costs one comparison against the stored hash; the first successful
comparison ends the loop with that candidate. The second component counts
the `check_viewing_key` invocations performed. -/
def authLoop (hash : Bytes → Bytes) (storage : Store) (key : Bytes)
    (api : HumanAddr → Bytes) : List HumanAddr → Option HumanAddr × Nat
  | [] => (none, 0)
  | address :: rest =>
      let canonical_addr := api address
      match read_viewing_key storage canonical_addr with
      | none =>
          -- the dummy comparison is performed for timing and its result dropped
          let _ := check_viewing_key hash key
            (List.replicate VIEWING_KEY_SIZE (0 : Byte))
          let r := authLoop hash storage key api rest
          (r.1, r.2 + 1)
      | some expected_key =>
          if check_viewing_key hash key expected_key then (some address, 1)
          else
            let r := authLoop hash storage key api rest
            (r.1, r.2 + 1)

/-- `query_read` from `contract.rs`; the outer `Option` is `none` when the
`.ok().unwrap()` panics on a decode error of the stored bytes. -/
def query_read (storage : Store) (address : HumanAddr)
    (api : HumanAddr → Bytes) : Option (Except StdError QueryAnswer) :=
  let sender_address := api address
  match (may_load decodeReminder storage sender_address).toOption with
  | none => none
  | some result =>
      match result with
      | some stored_reminder =>
          some (.ok (.Read "Reminder found." (some stored_reminder.content)
            (some stored_reminder.timestamp)))
      | none =>
          some (.ok (.Read "Reminder not found." none none))

/-- `authenticated_queries` from `contract.rs`: run the candidate loop; a
successful comparison dispatches on the query message (the read handler gets
the address carried by the message), a full pass without success is the
single uniform `unauthorized` error. The source's in-loop early return is
modelled by the first-success result of `authLoop`; the `panic!` arm for
non-authenticated query kinds is the outer `none`. -/
def authenticated_queries (hash : Bytes → Bytes) (storage : Store)
    (msg : QueryMsg) (api : HumanAddr → Bytes) :
    Option (Except StdError QueryAnswer) :=
  let p := get_validation_params msg
  match (authLoop hash storage p.2 api p.1).1 with
  | some _ =>
      match msg with
      | .Read address _ => query_read storage address api
      | _ => none
  | none => some (.error .unauthorized)

/-- `query_stats` from `contract.rs`. -/
def query_stats (storage : Store) : Except StdError QueryAnswer :=
  match load decodeState "State" storage CONFIG_KEY with
  | .error e => .error e
  | .ok config => .ok (.Stats config.reminder_count)

/-- `query` from `contract.rs`: stats is public, everything else goes through
the authentication gate. -/
def query (hash : Bytes → Bytes) (storage : Store) (msg : QueryMsg)
    (api : HumanAddr → Bytes) : Option (Except StdError QueryAnswer) :=
  match msg with
  | .Stats => some (query_stats storage)
  | _ => authenticated_queries hash storage msg api

/-- Whether the presented key succeeds against a candidate's stored key
reference (a candidate without a reference never matches). -/
def vkMatches (hash : Bytes → Bytes) (storage : Store) (key : Bytes)
    (api : HumanAddr → Bytes) (a : HumanAddr) : Bool :=
  match read_viewing_key storage (api a) with
  | some stored => check_viewing_key hash key stored
  | none => false

/-- Zero-based position of the first candidate whose check succeeds. -/
def firstMatchIdx (hash : Bytes → Bytes) (storage : Store) (key : Bytes)
    (api : HumanAddr → Bytes) : List HumanAddr → Option Nat
  | [] => none
  | a :: rest =>
      if vkMatches hash storage key api a then some 0
      else (firstMatchIdx hash storage key api rest).map (· + 1)

/-- One contract invocation as the host sees it: apply the writes of a
successful call, discard the writes of an error or a panic. -/
def step (hash : Bytes → Bytes) (api : HumanAddr → Bytes) (storage : Store)
    (c : Env × HandleMsg) : Store :=
  match handle hash storage c.1 c.2 api with
  | some (.ok (_, storage1)) => storage1
  | _ => storage

/-- Run a sequence of handle invocations. -/
def runTrace (hash : Bytes → Bytes) (api : HumanAddr → Bytes)
    (storage : Store) (cs : List (Env × HandleMsg)) : Store :=
  cs.foldl (step hash api) storage

/-- Whether an invocation is a successful record write (the status that the
write branch of `try_record` reports). -/
def isSuccessfulRecord (hash : Bytes → Bytes) (api : HumanAddr → Bytes)
    (storage : Store) (c : Env × HandleMsg) : Bool :=
  match handle hash storage c.1 c.2 api with
  | some (.ok (.Record status, _)) => status = "Reminder recorded!"
  | _ => false

/-- Number of successful record writes along a trace. -/
def countSuccess (hash : Bytes → Bytes) (api : HumanAddr → Bytes)
    (storage : Store) : List (Env × HandleMsg) → Nat
  | [] => 0
  | c :: cs =>
      (if isSuccessfulRecord hash api storage c then 1 else 0) +
        countSuccess hash api (step hash api storage c) cs

/-- The reminder counter a stats query would report (0 when the config is
missing or undecodable). -/
def configCount (storage : Store) : Nat :=
  match load decodeState "State" storage CONFIG_KEY with
  | .ok config => config.reminder_count
  | .error _ => 0

theorem vkKeyOf_ne_CONFIG_KEY (owner : Bytes) : vkKeyOf owner ≠ CONFIG_KEY := by
  intro h
  have hl : (vkKeyOf owner).length = CONFIG_KEY.length := by rw [h]
  simp [vkKeyOf, to_length_prefixed, PREFIX_VIEWING_KEY, CONFIG_KEY, strBytes] at hl

/-- Host application of `init`: writes applied on success, discarded on
error. -/
def initStep (hash : Bytes → Bytes) (storage : Store) (msg : InitMsg) : Store :=
  match init hash storage msg with
  | .ok storage1 => storage1
  | .error _ => storage

theorem load_config (storage : Store) (ms rc : Nat) (seed : Bytes)
    (hc : storeGet storage CONFIG_KEY = some (encodeState ⟨ms, rc, seed⟩))
    (h1 : ms < 2 ^ 16) (h2 : rc < 2 ^ 64) (h3 : seed.length < 2 ^ 64) :
    load decodeState "State" storage CONFIG_KEY = .ok ⟨ms, rc, seed⟩ := by
  simp [load, hc, decode_encodeState ⟨ms, rc, seed⟩ h1 h2 h3]

/-- C5: `init` succeeds for every `max_size` in `[1, 65535]`, writing the
fresh config; for every value below 1 or above 65535 it fails with the
validation error and applies no write. -/
theorem c5_init_validation (hash : Bytes → Bytes) (storage : Store)
    (m : Int) (ps : Bytes) :
    (1 ≤ m → m ≤ 65535 →
      init hash storage ⟨m, ps⟩ =
        .ok (storeSet storage CONFIG_KEY (encodeState ⟨m.toNat, 0, hash ps⟩))) ∧
    (m < 1 ∨ 65535 < m →
      init hash storage ⟨m, ps⟩ =
        .error (.genericErr "Invalid max_size. Must be in the range of 1..65535.") ∧
      initStep hash storage ⟨m, ps⟩ = storage) := by
  constructor
  · intro h1 h2
    simp [init, valid_max_size, save, show ¬ m < 1 by omega, h2]
  · intro h
    have hv : valid_max_size m = none := by
      rcases h with h | h
      · simp [valid_max_size, h]
      · simp [valid_max_size, show ¬ m < 1 by omega, show ¬ m ≤ 65535 by omega]
    constructor
    · simp [init, hv]
    · simp [initStep, init, hv]

/-- C5 witness: concrete success at 5 and failure at 0. -/
theorem c5_witness :
    (init (fun b => b) [] ⟨5, []⟩ =
      .ok (storeSet [] CONFIG_KEY (encodeState ⟨5, 0, []⟩))) ∧
    (init (fun b => b) [] ⟨0, []⟩ =
      .error (.genericErr "Invalid max_size. Must be in the range of 1..65535.") ∧
     initStep (fun b => b) [] ⟨0, []⟩ = []) :=
  ⟨(c5_init_validation (fun b => b) [] 5 []).1 (by decide) (by decide),
   (c5_init_validation (fun b => b) [] 0 []).2 (by decide)⟩

/-- C6: a record call whose content exceeds `max_size` succeeds with the
"too long" status and leaves the entire store unchanged (so any prior record
is preserved and the counter is not incremented). -/
theorem c6_too_long_no_mutation (storage : Store) (env : Env)
    (content : Bytes) (api : HumanAddr → Bytes) (ms rc : Nat) (seed : Bytes)
    (hc : storeGet storage CONFIG_KEY = some (encodeState ⟨ms, rc, seed⟩))
    (h1 : ms < 2 ^ 16) (h2 : rc < 2 ^ 64) (h3 : seed.length < 2 ^ 64)
    (hlong : ms < content.length) :
    try_record storage env content api =
      .ok (.Record "Message is too long. Reminder not recorded.", storage) := by
  unfold try_record
  rw [load_config storage ms rc seed hc h1 h2 h3]
  simp [hlong]

/-- C6 witness: a three-byte message against a config with `max_size = 2`
is rejected without touching the singleton store. -/
theorem c6_witness :
    try_record [(CONFIG_KEY, encodeState ⟨2, 0, []⟩)] ⟨"alice", 7, 3⟩
        (List.replicate 3 (0 : Byte)) (fun s => strBytes s) =
      .ok (.Record "Message is too long. Reminder not recorded.",
        [(CONFIG_KEY, encodeState ⟨2, 0, []⟩)]) :=
  c6_too_long_no_mutation _ _ _ _ 2 0 [] (by decide) (by decide) (by decide)
    (by decide) (by decide)

/-- C9: for each stored entity type, `save` then `load` round-trips the
value; `may_load` on a never-written key reports absence without error, and
`load` on an absent key fails with `NotFound`. -/
theorem c9_typed_store_roundtrip (storage : Store) (key : Bytes) (v : State)
    (r : Reminder) (h1 : v.max_size < 2 ^ 16) (h2 : v.reminder_count < 2 ^ 64)
    (h3 : v.prng_seed.length < 2 ^ 64) (h4 : r.content.length < 2 ^ 64)
    (h5 : r.timestamp < 2 ^ 64) :
    load decodeState "State" (save encodeState storage key v) key = .ok v ∧
    load decodeReminder "Reminder" (save encodeReminder storage key r) key = .ok r ∧
    (storeGet storage key = none →
      may_load decodeState storage key = .ok none ∧
      may_load decodeReminder storage key = .ok none ∧
      load decodeState "State" storage key = .error (.notFound "State") ∧
      load decodeReminder "Reminder" storage key = .error (.notFound "Reminder")) := by
  refine ⟨?_, ?_, ?_⟩
  · simp [load, save, storeGet_set_same, decode_encodeState v h1 h2 h3]
  · simp [load, save, storeGet_set_same, decode_encodeReminder r h4 h5]
  · intro habs
    refine ⟨?_, ?_, ?_, ?_⟩ <;> simp [may_load, load, habs]

/-- C9 witness: concrete round trips on an empty store. -/
theorem c9_witness :
    load decodeState "State" (save encodeState [] CONFIG_KEY ⟨3, 1, []⟩)
        CONFIG_KEY = .ok ⟨3, 1, []⟩ ∧
    load decodeReminder "Reminder"
        (save encodeReminder [] (strBytes "a") ⟨strBytes "hi", 9⟩)
        (strBytes "a") = .ok ⟨strBytes "hi", 9⟩ ∧
    may_load decodeReminder [] (strBytes "a") = .ok none :=
  ⟨(c9_typed_store_roundtrip [] CONFIG_KEY ⟨3, 1, []⟩ ⟨strBytes "hi", 9⟩
      (by decide) (by decide) (by decide) (by decide) (by decide)).1,
   (c9_typed_store_roundtrip [] (strBytes "a") ⟨3, 1, []⟩ ⟨strBytes "hi", 9⟩
      (by decide) (by decide) (by decide) (by decide) (by decide)).2.1,
   ((c9_typed_store_roundtrip [] (strBytes "a") ⟨3, 1, []⟩ ⟨strBytes "hi", 9⟩
      (by decide) (by decide) (by decide) (by decide) (by decide)).2.2
      (by decide)).2.1⟩

/-- C10: in both read paths an undecodable stored byte string at the owner's
key makes the `.ok().unwrap()` conversion panic (modelled as `none`) instead
of returning a typed error; bytes written by a successful record call always
decode, so the panic branch is unreachable under that precondition, and a
missing record is reported as the successful status "Reminder not found.". -/
theorem c10_read_panic_on_decode_failure (storage : Store) (env : Env)
    (addr : HumanAddr) (api : HumanAddr → Bytes) (bs : Bytes) (r : Reminder) :
    (storeGet storage (api env.sender) = some bs → decodeReminder bs = none →
      try_read storage env api = none) ∧
    (storeGet storage (api addr) = some bs → decodeReminder bs = none →
      query_read storage addr api = none) ∧
    (storeGet storage (api addr) = some (encodeReminder r) →
      r.content.length < 2 ^ 64 → r.timestamp < 2 ^ 64 →
      query_read storage addr api =
        some (.ok (.Read "Reminder found." (some r.content) (some r.timestamp)))) ∧
    (storeGet storage (api env.sender) = none →
      try_read storage env api =
        some (.ok (.Read "Reminder not found." none none, storage))) := by
  refine ⟨?_, ?_, ?_, ?_⟩
  · intro h hdec
    simp [try_read, may_load, h, hdec, Except.toOption]
  · intro h hdec
    simp [query_read, may_load, h, hdec, Except.toOption]
  · intro h h4 h5
    simp [query_read, may_load, h, decode_encodeReminder r h4 h5, Except.toOption]
  · intro h
    simp [try_read, may_load, h, Except.toOption]

/-- C10 witness: a one-byte stored value panics the handle-side read, while
an absent record reads back as the successful "not found" answer. -/
theorem c10_witness :
    try_read [(strBytes "alice", [(0 : Byte)])] ⟨"alice", 7, 3⟩
        (fun s => strBytes s) = none ∧
    try_read [] ⟨"alice", 7, 3⟩ (fun s => strBytes s) =
      some (.ok (.Read "Reminder not found." none none, [])) :=
  ⟨(c10_read_panic_on_decode_failure [(strBytes "alice", [(0 : Byte)])]
      ⟨"alice", 7, 3⟩ "alice" (fun s => strBytes s) [(0 : Byte)] ⟨[], 0⟩).1
      (by decide) (by decide),
   (c10_read_panic_on_decode_failure [] ⟨"alice", 7, 3⟩ "alice"
      (fun s => strBytes s) [(0 : Byte)] ⟨[], 0⟩).2.2.2 (by decide)⟩

/-- C1 counterexample: a two-candidate list whose first candidate's stored
key reference matches the presented key costs one comparison, not two — the
loop returns from inside its body on the first success, so the count is not
"exactly K regardless of where a match occurs". -/
theorem c1_counterexample :
    (authLoop (fun b => b) [(vkKeyOf (strBytes "a"), strBytes "k")]
        (strBytes "k") (fun s => strBytes s) ["a", "b"]).2 ≠
      (["a", "b"] : List HumanAddr).length := by decide

/-- C1 (amended): the candidate loop performs exactly one fixed-time
comparison per candidate visited — a same-length dummy comparison when the
candidate has no stored key reference — visiting candidates in order and
stopping at the first successful check; hence the count is exactly K when no
candidate matches and i+1 when the first match sits at zero-based index i. -/
theorem c1_loop_comparison_count (hash : Bytes → Bytes) (storage : Store)
    (key : Bytes) (api : HumanAddr → Bytes) (addrs : List HumanAddr) :
    (authLoop hash storage key api addrs).2 =
      (match firstMatchIdx hash storage key api addrs with
       | none => addrs.length
       | some i => i + 1) := by
  induction addrs with
  | nil => rfl
  | cons a rest ih =>
      cases hrv : read_viewing_key storage (api a) with
      | none =>
          simp only [authLoop, firstMatchIdx, vkMatches, hrv, ih]
          cases firstMatchIdx hash storage key api rest <;> simp
      | some stored =>
          cases hc : check_viewing_key hash key stored with
          | true => simp [authLoop, firstMatchIdx, vkMatches, hrv, hc]
          | false =>
              simp only [authLoop, firstMatchIdx, vkMatches, hrv, hc, ih]
              cases firstMatchIdx hash storage key api rest <;> simp

/-- C3 counterexample: the record key of an owner whose canonical identity
bytes are b"config" is byte-for-byte the config key — record keys carry no
domain tag, so the (record, b"config") pair collides with the (config, –)
pair in the flat backend. -/
theorem c3_counterexample : recordKeyOf (strBytes "config") = CONFIG_KEY := by
  decide

/-- C3 (amended): only viewing-key-hash keys carry a domain tag (the
length-prefixed "viewingkey" namespace); config and record keys are raw.
The three key families are pairwise distinct only under the host guarantee
that canonical identities share one fixed byte length different from 6, and
within each family keys are injective in the owner. -/
theorem c3_key_distinctness (c1 c2 : Bytes) (L : Nat) (hL1 : c1.length = L)
    (hL2 : c2.length = L) (hne : L ≠ 6) :
    recordKeyOf c1 ≠ CONFIG_KEY ∧
    vkKeyOf c1 ≠ CONFIG_KEY ∧
    recordKeyOf c1 ≠ vkKeyOf c2 ∧
    (c1 ≠ c2 → recordKeyOf c1 ≠ recordKeyOf c2 ∧ vkKeyOf c1 ≠ vkKeyOf c2) := by
  refine ⟨?_, vkKeyOf_ne_CONFIG_KEY c1, ?_, ?_⟩
  · intro h
    have := congrArg List.length h
    simp [recordKeyOf, hL1, CONFIG_KEY, strBytes] at this
    omega
  · intro h
    have := congrArg List.length h
    simp [recordKeyOf, vkKeyOf, to_length_prefixed, PREFIX_VIEWING_KEY,
      strBytes, hL1, hL2] at this
    omega
  · intro hcc
    refine ⟨by simpa [recordKeyOf] using hcc, ?_⟩
    intro h
    exact hcc (List.append_cancel_left h)

/-- C3 witness: distinct one-byte owners give pairwise distinct keys. -/
theorem c3_witness :
    recordKeyOf [(0 : Byte)] ≠ CONFIG_KEY ∧
    vkKeyOf [(0 : Byte)] ≠ CONFIG_KEY ∧
    recordKeyOf [(0 : Byte)] ≠ vkKeyOf [(1 : Byte)] ∧
    (recordKeyOf [(0 : Byte)] ≠ recordKeyOf [(1 : Byte)] ∧
      vkKeyOf [(0 : Byte)] ≠ vkKeyOf [(1 : Byte)]) := by
  have h := c3_key_distinctness [(0 : Byte)] [(1 : Byte)] 1 rfl rfl (by decide)
  exact ⟨h.1, h.2.1, h.2.2.1, h.2.2.2 (by decide)⟩

/-- C2: an authenticated read presenting the correct current viewing key of
the candidate identity succeeds with exactly that identity's stored record;
when the candidate has no stored key reference, or the presented token's
hash does not match the stored reference, the query returns the one uniform
`unauthorized` error, identical in both failure shapes. -/
theorem c2_authenticated_read (hash : Bytes → Bytes) (storage : Store)
    (A : HumanAddr) (token : Bytes) (api : HumanAddr → Bytes) :
    (read_viewing_key storage (api A) = some (to_hashed hash token) →
      ∀ r : Reminder, storeGet storage (api A) = some (encodeReminder r) →
        r.content.length < 2 ^ 64 → r.timestamp < 2 ^ 64 →
        authenticated_queries hash storage (.Read A token) api =
          some (.ok (.Read "Reminder found." (some r.content)
            (some r.timestamp)))) ∧
    (read_viewing_key storage (api A) = none →
      authenticated_queries hash storage (.Read A token) api =
        some (.error .unauthorized)) ∧
    (∀ stored, read_viewing_key storage (api A) = some stored →
      check_viewing_key hash token stored = false →
      authenticated_queries hash storage (.Read A token) api =
        some (.error .unauthorized)) := by
  refine ⟨?_, ?_, ?_⟩
  · intro hkey r hrec h1 h2
    have hchk : check_viewing_key hash token (to_hashed hash token) = true :=
      ctEq_self _
    simp only [authenticated_queries, get_validation_params, authLoop, hkey,
      hchk, if_pos rfl]
    simp [query_read, may_load, hrec, decode_encodeReminder r h1 h2,
      Except.toOption]
  · intro hkey
    simp [authenticated_queries, get_validation_params, authLoop, hkey]
  · intro stored hkey hchk
    simp [authenticated_queries, get_validation_params, authLoop, hkey, hchk]

/-- C2 witness: with the stored hash of token "k" and a stored record, the
read with "k" returns that record, and the read with the wrong token "x"
(against the same identity) is rejected with the uniform error, as is a read
against an identity with no stored key reference. -/
theorem c2_witness :
    authenticated_queries (fun b => b)
        [(vkKeyOf (strBytes "a"), strBytes "k"),
         (strBytes "a", encodeReminder ⟨strBytes "hi", 9⟩)]
        (.Read "a" (strBytes "k")) (fun s => strBytes s) =
      some (.ok (.Read "Reminder found." (some (strBytes "hi")) (some 9))) ∧
    authenticated_queries (fun b => b)
        [(vkKeyOf (strBytes "a"), strBytes "k"),
         (strBytes "a", encodeReminder ⟨strBytes "hi", 9⟩)]
        (.Read "a" (strBytes "x")) (fun s => strBytes s) =
      some (.error .unauthorized) ∧
    authenticated_queries (fun b => b) [] (.Read "a" (strBytes "k"))
        (fun s => strBytes s) = some (.error .unauthorized) :=
  ⟨(c2_authenticated_read (fun b => b)
      [(vkKeyOf (strBytes "a"), strBytes "k"),
       (strBytes "a", encodeReminder ⟨strBytes "hi", 9⟩)]
      "a" (strBytes "k") (fun s => strBytes s)).1 (by decide)
      ⟨strBytes "hi", 9⟩ (by decide) (by decide) (by decide),
   (c2_authenticated_read (fun b => b)
      [(vkKeyOf (strBytes "a"), strBytes "k"),
       (strBytes "a", encodeReminder ⟨strBytes "hi", 9⟩)]
      "a" (strBytes "x") (fun s => strBytes s)).2.2 (strBytes "k")
      (by decide) (by decide),
   (c2_authenticated_read (fun b => b) [] "a" (strBytes "k")
      (fun s => strBytes s)).2.1 (by decide)⟩

/-- C7: recording content no longer than `max_size` and then reading as the
same identity returns "Reminder found." with the original content and the
block time stamped at the moment of the write. -/
theorem c7_record_then_read (storage : Store) (env env2 : Env)
    (content : Bytes) (api : HumanAddr → Bytes) (ms rc : Nat) (seed : Bytes)
    (hc : storeGet storage CONFIG_KEY = some (encodeState ⟨ms, rc, seed⟩))
    (h1 : ms < 2 ^ 16) (h2 : rc < 2 ^ 64) (h3 : seed.length < 2 ^ 64)
    (hsz : content.length ≤ ms) (ht : env.time < 2 ^ 64)
    (hsender : env2.sender = env.sender)
    (hkey : api env.sender ≠ CONFIG_KEY) :
    ∃ storage2,
      try_record storage env content api =
        .ok (.Record "Reminder recorded!", storage2) ∧
      try_read storage2 env2 api =
        some (.ok (.Read "Reminder found." (some content) (some env.time),
          storage2)) := by
  refine ⟨save encodeState
      (save encodeReminder storage (api env.sender) ⟨content, env.time⟩)
      CONFIG_KEY ⟨ms, rc + 1, seed⟩, ?_, ?_⟩
  · unfold try_record
    rw [load_config storage ms rc seed hc h1 h2 h3]
    simp [show ¬ ms < content.length by omega]
  · have hget : storeGet
        (save encodeState
          (save encodeReminder storage (api env.sender) ⟨content, env.time⟩)
          CONFIG_KEY ⟨ms, rc + 1, seed⟩)
        (api env2.sender) = some (encodeReminder ⟨content, env.time⟩) := by
      rw [hsender]
      unfold save
      rw [storeGet_set_ne _ _ _ _ (fun h => hkey h.symm), storeGet_set_same]
    simp only [try_read, may_load, hget,
      decode_encodeReminder ⟨content, env.time⟩ (by simp; omega) ht,
      Except.toOption]

/-- C7 witness: record two bytes under max_size 5, then read them back. -/
theorem c7_witness :
    ∃ storage2,
      try_record [(CONFIG_KEY, encodeState ⟨5, 0, []⟩)] ⟨"alice", 7, 3⟩
          (strBytes "hi") (fun s => strBytes s) =
        .ok (.Record "Reminder recorded!", storage2) ∧
      try_read storage2 ⟨"alice", 8, 4⟩ (fun s => strBytes s) =
        some (.ok (.Read "Reminder found." (some (strBytes "hi")) (some 7),
          storage2)) :=
  c7_record_then_read [(CONFIG_KEY, encodeState ⟨5, 0, []⟩)] ⟨"alice", 7, 3⟩
    ⟨"alice", 8, 4⟩ (strBytes "hi") (fun s => strBytes s) 5 0 [] (by decide)
    (by decide) (by decide) (by decide) (by decide) (by decide) (by decide)
    (by decide)

/-- C8: generating a viewing key twice for the same identity unconditionally
overwrites the stored reference with the one-way hash of the second token
(never the token itself); the second token then authenticates against the
stored reference, and — whenever the two tokens hash differently — the first
token no longer does. -/
theorem c8_key_rotation (hash : Bytes → Bytes) (storage : Store)
    (env1 env2 : Env) (e1 e2 : Bytes) (api : HumanAddr → Bytes)
    (ms rc : Nat) (seed : Bytes)
    (hc : storeGet storage CONFIG_KEY = some (encodeState ⟨ms, rc, seed⟩))
    (h1 : ms < 2 ^ 16) (h2 : rc < 2 ^ 64) (h3 : seed.length < 2 ^ 64)
    (hsender : env2.sender = env1.sender) :
    try_generate_viewing_key hash storage env1 e1 api =
      .ok (.GenerateViewingKey (vkNew hash env1 seed e1),
        write_viewing_key hash storage (api env1.sender)
          (vkNew hash env1 seed e1)) ∧
    try_generate_viewing_key hash
        (write_viewing_key hash storage (api env1.sender)
          (vkNew hash env1 seed e1)) env2 e2 api =
      .ok (.GenerateViewingKey (vkNew hash env2 seed e2),
        write_viewing_key hash
          (write_viewing_key hash storage (api env1.sender)
            (vkNew hash env1 seed e1))
          (api env2.sender) (vkNew hash env2 seed e2)) ∧
    read_viewing_key
        (write_viewing_key hash
          (write_viewing_key hash storage (api env1.sender)
            (vkNew hash env1 seed e1))
          (api env2.sender) (vkNew hash env2 seed e2))
        (api env1.sender) = some (to_hashed hash (vkNew hash env2 seed e2)) ∧
    check_viewing_key hash (vkNew hash env2 seed e2)
        (to_hashed hash (vkNew hash env2 seed e2)) = true ∧
    (hash (vkNew hash env1 seed e1) ≠ hash (vkNew hash env2 seed e2) →
      check_viewing_key hash (vkNew hash env1 seed e1)
        (to_hashed hash (vkNew hash env2 seed e2)) = false) := by
  refine ⟨?_, ?_, ?_, ctEq_self _, ?_⟩
  · unfold try_generate_viewing_key
    rw [load_config storage ms rc seed hc h1 h2 h3]
  · unfold try_generate_viewing_key
    rw [load_config _ ms rc seed ?_ h1 h2 h3]
    unfold write_viewing_key
    rw [storeGet_set_ne _ _ _ _ (vkKeyOf_ne_CONFIG_KEY _)]
    exact hc
  · unfold read_viewing_key write_viewing_key
    rw [hsender, storeGet_set_same]
  · intro hne
    exact ctEq_ne _ _ hne

/-- C8 witness: two generations at different block heights with the identity
hash give distinct tokens, the second of which is the only one stored and
authenticating. -/
theorem c8_witness :
    try_generate_viewing_key (fun b => b)
        [(CONFIG_KEY, encodeState ⟨5, 0, []⟩)] ⟨"a", 1, 1⟩ [] (fun s => strBytes s) =
      .ok (.GenerateViewingKey (vkNew (fun b => b) ⟨"a", 1, 1⟩ [] []),
        write_viewing_key (fun b => b) [(CONFIG_KEY, encodeState ⟨5, 0, []⟩)]
          (strBytes "a") (vkNew (fun b => b) ⟨"a", 1, 1⟩ [] [])) ∧
    check_viewing_key (fun b => b) (vkNew (fun b => b) ⟨"a", 1, 1⟩ [] [])
        (to_hashed (fun b => b) (vkNew (fun b => b) ⟨"a", 2, 2⟩ [] [])) = false := by
  have h := c8_key_rotation (fun b => b) [(CONFIG_KEY, encodeState ⟨5, 0, []⟩)]
    ⟨"a", 1, 1⟩ ⟨"a", 2, 2⟩ [] [] (fun s => strBytes s) 5 0 [] (by decide)
    (by decide) (by decide) (by decide) (by decide)
  exact ⟨h.1, h.2.2.2.2 (by decide)⟩

theorem step_read_frame (hash : Bytes → Bytes) (api : HumanAddr → Bytes)
    (storage : Store) (env : Env) :
    step hash api storage (env, .Read) = storage ∧
    isSuccessfulRecord hash api storage (env, .Read) = false := by
  cases h : (may_load decodeReminder storage (api env.sender)).toOption with
  | none =>
      constructor <;> simp [step, isSuccessfulRecord, handle, try_read, h]
  | some r =>
      cases r <;>
        (constructor <;> simp [step, isSuccessfulRecord, handle, try_read, h])

theorem step_record_cases (hash : Bytes → Bytes) (api : HumanAddr → Bytes)
    (storage : Store) (env : Env) (content : Bytes) (ms k : Nat) (seed : Bytes)
    (hc : storeGet storage CONFIG_KEY = some (encodeState ⟨ms, k, seed⟩))
    (h1 : ms < 2 ^ 16) (h2 : k < 2 ^ 64) (h3 : seed.length < 2 ^ 64) :
    (ms < content.length →
      step hash api storage (env, .Record content) = storage ∧
      isSuccessfulRecord hash api storage (env, .Record content) = false) ∧
    (content.length ≤ ms →
      step hash api storage (env, .Record content) =
        save encodeState
          (save encodeReminder storage (api env.sender) ⟨content, env.time⟩)
          CONFIG_KEY ⟨ms, k + 1, seed⟩ ∧
      isSuccessfulRecord hash api storage (env, .Record content) = true) := by
  have hload := load_config storage ms k seed hc h1 h2 h3
  constructor
  · intro hlong
    constructor <;>
      simp [step, isSuccessfulRecord, handle, try_record, hload, hlong]
  · intro hshort
    constructor <;>
      simp [step, isSuccessfulRecord, handle, try_record, hload,
        show ¬ ms < content.length by omega]

theorem step_genkey_frame (hash : Bytes → Bytes) (api : HumanAddr → Bytes)
    (storage : Store) (env : Env) (entropy : Bytes) (ms k : Nat) (seed : Bytes)
    (hc : storeGet storage CONFIG_KEY = some (encodeState ⟨ms, k, seed⟩))
    (h1 : ms < 2 ^ 16) (h2 : k < 2 ^ 64) (h3 : seed.length < 2 ^ 64) :
    storeGet (step hash api storage (env, .GenerateViewingKey entropy))
        CONFIG_KEY = some (encodeState ⟨ms, k, seed⟩) ∧
    isSuccessfulRecord hash api storage (env, .GenerateViewingKey entropy) =
      false := by
  have hload := load_config storage ms k seed hc h1 h2 h3
  constructor
  · simp only [step, handle, try_generate_viewing_key, hload]
    unfold write_viewing_key
    rw [storeGet_set_ne _ _ _ _ (vkKeyOf_ne_CONFIG_KEY _)]
    exact hc
  · simp [isSuccessfulRecord, handle, try_generate_viewing_key, hload]

/-- Invariant: the stored config's counter advances by exactly the number of
successful record writes of the trace, while `max_size` and the seed are
untouched. -/
theorem runTrace_config (hash : Bytes → Bytes) (api : HumanAddr → Bytes)
    (cs : List (Env × HandleMsg)) (storage : Store) (ms k : Nat) (seed : Bytes)
    (h1 : ms < 2 ^ 16) (h3 : seed.length < 2 ^ 64)
    (hc : storeGet storage CONFIG_KEY = some (encodeState ⟨ms, k, seed⟩))
    (hbound : k + countSuccess hash api storage cs < 2 ^ 64)
    (hapi : ∀ c ∈ cs, api c.1.sender ≠ CONFIG_KEY) :
    storeGet (runTrace hash api storage cs) CONFIG_KEY =
      some (encodeState ⟨ms, k + countSuccess hash api storage cs, seed⟩) := by
  induction cs generalizing storage k with
  | nil => simpa [runTrace, countSuccess] using hc
  | cons c cs ih =>
      have h2 : k < 2 ^ 64 := by
        have := hbound
        simp [countSuccess] at this
        omega
      have hrun : runTrace hash api storage (c :: cs) =
          runTrace hash api (step hash api storage c) cs := by
        simp [runTrace]
      have hcount : countSuccess hash api storage (c :: cs) =
          (if isSuccessfulRecord hash api storage c then 1 else 0) +
            countSuccess hash api (step hash api storage c) cs := rfl
      have hapi2 : ∀ x ∈ cs, api x.1.sender ≠ CONFIG_KEY :=
        fun x hx => hapi x (List.mem_cons_of_mem c hx)
      obtain ⟨env, msg⟩ := c
      cases msg with
      | Record content =>
          rcases Nat.lt_or_ge ms content.length with hlong | hshort
          · obtain ⟨hstep, hsucc⟩ :=
              (step_record_cases hash api storage env content ms k seed hc h1
                h2 h3).1 hlong
            have hcv : countSuccess hash api storage
                ((env, HandleMsg.Record content) :: cs) =
                countSuccess hash api
                  (step hash api storage (env, .Record content)) cs := by
              rw [hcount, hsucc]; simp
            rw [hrun, hcv, hstep]
            rw [hcv, hstep] at hbound
            exact ih storage k hc hbound hapi2
          · obtain ⟨hstep, hsucc⟩ :=
              (step_record_cases hash api storage env content ms k seed hc h1
                h2 h3).2 hshort
            have hc2 : storeGet (step hash api storage (env, .Record content))
                CONFIG_KEY = some (encodeState ⟨ms, k + 1, seed⟩) := by
              rw [hstep]
              exact storeGet_set_same ..
            have hcv : countSuccess hash api storage
                ((env, HandleMsg.Record content) :: cs) =
                1 + countSuccess hash api
                  (step hash api storage (env, .Record content)) cs := by
              rw [hcount, hsucc]; simp
            have harith : k + (1 + countSuccess hash api
                (step hash api storage (env, .Record content)) cs) =
                (k + 1) + countSuccess hash api
                  (step hash api storage (env, .Record content)) cs := by
              omega
            rw [hrun, hcv, harith]
            rw [hcv] at hbound
            exact ih _ (k + 1) hc2 (by omega) hapi2
      | Read =>
          obtain ⟨hstep, hsucc⟩ := step_read_frame hash api storage env
          have hcv : countSuccess hash api storage
              ((env, HandleMsg.Read) :: cs) =
              countSuccess hash api
                (step hash api storage (env, .Read)) cs := by
            rw [hcount, hsucc]; simp
          rw [hrun, hcv, hstep]
          rw [hcv, hstep] at hbound
          exact ih storage k hc hbound hapi2
      | GenerateViewingKey entropy =>
          obtain ⟨hc2, hsucc⟩ := step_genkey_frame hash api storage env entropy
            ms k seed hc h1 h2 h3
          have hcv : countSuccess hash api storage
              ((env, HandleMsg.GenerateViewingKey entropy) :: cs) =
              countSuccess hash api
                (step hash api storage (env, .GenerateViewingKey entropy)) cs := by
            rw [hcount, hsucc]; simp
          rw [hrun, hcv]
          rw [hcv] at hbound
          exact ih _ k hc2 hbound hapi2

theorem countSuccess_append (hash : Bytes → Bytes) (api : HumanAddr → Bytes)
    (l1 l2 : List (Env × HandleMsg)) (storage : Store) :
    countSuccess hash api storage (l1 ++ l2) =
      countSuccess hash api storage l1 +
        countSuccess hash api (runTrace hash api storage l1) l2 := by
  induction l1 generalizing storage with
  | nil => simp [countSuccess, runTrace]
  | cons c l1 ih =>
      have ha : countSuccess hash api storage ((c :: l1) ++ l2) =
          (if isSuccessfulRecord hash api storage c then 1 else 0) +
            countSuccess hash api (step hash api storage c) (l1 ++ l2) := rfl
      have hb : countSuccess hash api storage (c :: l1) =
          (if isSuccessfulRecord hash api storage c then 1 else 0) +
            countSuccess hash api (step hash api storage c) l1 := rfl
      have hd : runTrace hash api storage (c :: l1) =
          runTrace hash api (step hash api storage c) l1 := rfl
      rw [ha, ih (step hash api storage c), hb, hd]
      omega

/-- C4: starting from a freshly initialized contract, after any sequence of
handle invocations the stats query reports a `reminder_count` equal to the
number of successful record writes performed (same-owner overwrites counted
each time), and the reported counter is non-decreasing along the trace. -/
theorem c4_reminder_count (hash : Bytes → Bytes) (api : HumanAddr → Bytes)
    (storage0 storage1 : Store) (m : Int) (ps : Bytes)
    (cs : List (Env × HandleMsg)) (n : Nat)
    (hinit : init hash storage0 ⟨m, ps⟩ = .ok storage1)
    (hseed : (hash ps).length < 2 ^ 64)
    (hapi : ∀ c ∈ cs, api c.1.sender ≠ CONFIG_KEY)
    (hbound : countSuccess hash api storage1 cs < 2 ^ 64) :
    query_stats (runTrace hash api storage1 cs) =
      .ok (.Stats (countSuccess hash api storage1 cs)) ∧
    configCount (runTrace hash api storage1 (cs.take n)) ≤
      configCount (runTrace hash api storage1 (cs.take (n + 1))) := by
  obtain ⟨v, hvm, hv16, hs1⟩ : ∃ v, valid_max_size m = some v ∧ v < 2 ^ 16 ∧
      storage1 = storeSet storage0 CONFIG_KEY (encodeState ⟨v, 0, hash ps⟩) := by
    unfold init at hinit
    cases hvm : valid_max_size m with
    | none => rw [hvm] at hinit; exact absurd hinit (by simp)
    | some v =>
        rw [hvm] at hinit
        refine ⟨v, rfl, ?_, ?_⟩
        · unfold valid_max_size at hvm
          by_cases h : m < 1
          · simp [h] at hvm
          · by_cases h2 : m ≤ 65535
            · simp [h, h2] at hvm
              omega
            · simp [h, h2] at hvm
        · exact (Except.ok.inj hinit).symm
  have hc1 : storeGet storage1 CONFIG_KEY = some (encodeState ⟨v, 0, hash ps⟩) := by
    rw [hs1]
    exact storeGet_set_same ..
  have hsub : ∀ j, countSuccess hash api storage1 (cs.take j) ≤
      countSuccess hash api storage1 cs := by
    intro j
    conv_rhs => rw [← List.take_append_drop j cs]
    rw [countSuccess_append]
    omega
  have hcfg : ∀ j, configCount (runTrace hash api storage1 (cs.take j)) =
      countSuccess hash api storage1 (cs.take j) := by
    intro j
    have hb : 0 + countSuccess hash api storage1 (cs.take j) < 2 ^ 64 := by
      have := hsub j
      omega
    have h := runTrace_config hash api (cs.take j) storage1 v 0 (hash ps)
      hv16 hseed hc1 hb
      (fun c hcmem => hapi c (List.take_subset j cs hcmem))
    rw [Nat.zero_add] at h
    unfold configCount
    rw [load_config _ v _ (hash ps) h hv16 (by have := hsub j; omega) hseed]
  constructor
  · have hb : 0 + countSuccess hash api storage1 cs < 2 ^ 64 := by omega
    have h := runTrace_config hash api cs storage1 v 0 (hash ps) hv16 hseed
      hc1 hb hapi
    rw [Nat.zero_add] at h
    unfold query_stats
    rw [load_config _ v _ (hash ps) h hv16 (by omega) hseed]
  · rw [hcfg n, hcfg (n + 1), List.take_succ, countSuccess_append]
    omega

/-- C4 witness: one successful record call on a fresh contract reports a
count of 1, and the counter does not decrease across that call. -/
theorem c4_witness :
    query_stats (runTrace (fun b => b) (fun s => strBytes s)
        (storeSet [] CONFIG_KEY (encodeState ⟨5, 0, []⟩))
        [(⟨"alice", 7, 3⟩, .Record [(0 : Byte)])]) =
      .ok (.Stats (countSuccess (fun b => b) (fun s => strBytes s)
        (storeSet [] CONFIG_KEY (encodeState ⟨5, 0, []⟩))
        [(⟨"alice", 7, 3⟩, .Record [(0 : Byte)])])) ∧
    configCount (runTrace (fun b => b) (fun s => strBytes s)
        (storeSet [] CONFIG_KEY (encodeState ⟨5, 0, []⟩))
        (([(⟨"alice", 7, 3⟩, .Record [(0 : Byte)])] :
          List (Env × HandleMsg)).take 0)) ≤
      configCount (runTrace (fun b => b) (fun s => strBytes s)
        (storeSet [] CONFIG_KEY (encodeState ⟨5, 0, []⟩))
        (([(⟨"alice", 7, 3⟩, .Record [(0 : Byte)])] :
          List (Env × HandleMsg)).take 1)) :=
  c4_reminder_count (fun b => b) (fun s => strBytes s) []
    (storeSet [] CONFIG_KEY (encodeState ⟨5, 0, []⟩)) 5 []
    [(⟨"alice", 7, 3⟩, .Record [(0 : Byte)])] 0 (by decide) (by decide)
    (by decide) (by decide)

end ReminderContract
